import Mathlib

/-!
Shallow embedding of `scripts/vector_to_raster.py` (Baltic vector-to-raster
conversion pipeline) and proofs about its core algorithms: geometry
filtering, grid-spec calculation, value encoding, and scan conversion.

Coordinates are modelled as exact rationals (the Python code uses floats),
8-bit pixel values as integers with an explicit [0, 255] range check, and
fallible steps as `Option` / `Except`.
-/

/-- Axis-aligned bounding box `(minx, miny, maxx, maxy)` in map units
(spec section 3). -/
structure BBox where
  minx : ℚ
  miny : ℚ
  maxx : ℚ
  maxy : ℚ
  deriving DecidableEq

/-- Modelled from the spec: a polygon / multi-polygon geometry (spec section 3).
The script delegates all geometric predicates to external libraries, so the
geometry is represented by the data those predicates need: its vertex list
(driving the bounds computation of `gdf.total_bounds`), an abstract decidable
pixel-center containment test (spec section 4.4; the exact boundary rule is
explicitly left open in spec section 9), and an abstract exact-intersection
test against a bounding box (spec section 4.1). -/
structure Geom where
  verts : List (ℚ × ℚ)
  contains : ℚ × ℚ → Bool
  intersectsBox : BBox → Bool

/-- A feature: optional polygon geometry (absent = invalid record) plus the
integer `DN` attribute (spec section 3). -/
structure Feature where
  geometry : Option Geom
  dn : Int

/-- Affine transform mapping pixel (col, row) to map (x, y):
`x = a * col + b * row + c`, `y = d * col + e * row + f`, the convention of
the transform built at line 258 of the script. -/
structure Transform where
  a : ℚ
  b : ℚ
  c : ℚ
  d : ℚ
  e : ℚ
  f : ℚ
  deriving DecidableEq

/-- Error taxonomy of the pipeline (spec section 7). `runtimeError` stands for
an uncaught exception reaching the `try`/`except` block of `main`. -/
inductive ErrKind where
  | emptyResult : String → ErrKind
  | invalidConfig : String → ErrKind
  | invalidValue : Int → ErrKind
  | geometryError : String → ErrKind
  | runtimeError : String → ErrKind
  deriving DecidableEq

/-- Configuration constant, line 40 of the script: full-extent processing. -/
def CROP_BBOX : Option BBox := none

/-- Configuration constant, line 43 of the script. -/
def DN_THRESHOLD : Int := 253

/-- Configuration constant, line 47 of the script. -/
def PIXEL_RESOLUTION : ℚ := 50

/-- Configuration constant, line 50 of the script. -/
def OUTPUT_VALUE_TYPE : String := "original_dn"

/-- Configuration constant, line 51 of the script. -/
def NODATA_VALUE : Int := 0

/-- Line 157: `gdf = gdf[gdf.geometry.notna()]`. -/
def filter_null_geometries (gdf : List Feature) : List Feature :=
  gdf.filter (fun f => f.geometry.isSome)

/-- Lines 179-189: no bbox means full extent; otherwise keep features whose
geometry intersects the box (`gdf.cx` slicing; exact intersection left to the
geometry library via `Geom.intersectsBox`). -/
def crop_to_bbox (gdf : List Feature) (bbox : Option BBox) : List Feature :=
  match bbox with
  | none => gdf
  | some bb =>
      gdf.filter (fun f =>
        match f.geometry with
        | some g => g.intersectsBox bb
        | none => false)

/-- Line 214: `gdf = gdf[gdf['DN'] >= threshold]`. -/
def filter_by_dn_threshold (gdf : List Feature) (threshold : Int) : List Feature :=
  gdf.filter (fun f => decide (threshold ≤ f.dn))

/-- All vertices of all (non-null) geometries of the collection. -/
def allVertices : List Feature → List (ℚ × ℚ)
  | [] => []
  | f :: rest =>
      (match f.geometry with
       | some g => g.verts
       | none => []) ++ allVertices rest

/-- Line 238: `gdf.total_bounds`, the element-wise union bounding box over all
geometry vertices (documented geopandas semantics); `none` when there is no
coordinate at all (geopandas returns NaN bounds there). -/
def totalBounds (gdf : List Feature) : Option BBox :=
  match allVertices gdf with
  | [] => none
  | v :: vs =>
      some ⟨List.foldl min v.1 (vs.map Prod.fst),
            List.foldl min v.2 (vs.map Prod.snd),
            List.foldl max v.1 (vs.map Prod.fst),
            List.foldl max v.2 (vs.map Prod.snd)⟩

/-- Lines 243-247: `cols = int(np.ceil(width / resolution))`,
`rows = int(np.ceil(height / resolution))`, `shape = (rows, cols)`.
No clamping is performed. -/
def raster_shape (bb : BBox) (resolution : ℚ) : Int × Int :=
  (⌈(bb.maxy - bb.miny) / resolution⌉, ⌈(bb.maxx - bb.minx) / resolution⌉)

/-- Line 258: `rasterio.transform.from_bounds(west, south, east, north, width,
height)`, whose documented semantics is
`Affine.translation(west, north) * Affine.scale((east-west)/width,
(south-north)/height)`; a zero pixel count raises `ZeroDivisionError`,
modelled as `none`. -/
def from_bounds (west south east north : ℚ) (width height : Int) : Option Transform :=
  if width = 0 ∨ height = 0 then none
  else some ⟨(east - west) / (width : ℚ), 0, west,
             0, (south - north) / (height : ℚ), north⟩

/-- Lines 224-261: bounds from `gdf.total_bounds`, ceil dimensions, affine
transform from bounds. The oversized-raster warning (line 254) is a pure
diagnostic print and does not affect the returned value. -/
def calculate_raster_params (gdf : List Feature) (resolution : ℚ) :
    Option (BBox × (Int × Int) × Transform) :=
  match totalBounds gdf with
  | none => none
  | some bb =>
      match from_bounds bb.minx bb.miny bb.maxx bb.maxy
              (raster_shape bb resolution).2 (raster_shape bb resolution).1 with
      | none => none
      | some tr => some (bb, raster_shape bb resolution, tr)

/-- Lines 290-298: the fixed categorical mapping. -/
def dn_to_category (dn : Int) : Int :=
  if dn = 253 then 1
  else if dn = 254 then 2
  else if dn = 255 then 3
  else 0

/-- Lines 281-301: build the geometry/value pairs handed to `rasterize`
according to `value_type`; an unknown `value_type` raises `ValueError`
(spec: `InvalidConfig`). -/
def encodeShapes (gdf : List Feature) (value_type : String) :
    Except ErrKind (List (Option Geom × Int)) :=
  if value_type = "binary" then
    .ok (gdf.map (fun f => (f.geometry, 1)))
  else if value_type = "original_dn" then
    .ok (gdf.map (fun f => (f.geometry, f.dn)))
  else if value_type = "categorical" then
    .ok (gdf.map (fun f => (f.geometry, dn_to_category f.dn)))
  else
    .error (.invalidConfig value_type)

/-- Helper restating the per-policy encoded value of one feature (agrees with
`encodeShapes` on every recognized policy; see `encodeShapes_ok_eq`). -/
def encodedValue (value_type : String) (dn : Int) : Int :=
  if value_type = "binary" then 1
  else if value_type = "original_dn" then dn
  else if value_type = "categorical" then dn_to_category dn
  else 0

/-- Map coordinate of the center of pixel (row, col) under a transform
(spec section 4.4: centroid sampling). -/
def pixelCenter (tr : Transform) (row col : Nat) : ℚ × ℚ :=
  (tr.a * ((col : ℚ) + 1/2) + tr.b * ((row : ℚ) + 1/2) + tr.c,
   tr.d * ((col : ℚ) + 1/2) + tr.e * ((row : ℚ) + 1/2) + tr.f)

/-- Validate geometries of the shape list: `none` as soon as one geometry is
absent (the rasterization routine raises on an invalid geometry object). -/
def extractShapes : List (Option Geom × Int) → Option (List (Geom × Int))
  | [] => some []
  | (g?, v) :: rest =>
      match g? with
      | none => none
      | some g => (extractShapes rest).map (fun t => (g, v) :: t)

/-- Paint the ordered shape list at one sample point: the array is initialized
to the fill value 0 (line 308) and each shape whose geometry contains the
point overwrites the value, so the later shape wins (spec section 4.4). -/
def paintAt (gs : List (Geom × Int)) (p : ℚ × ℚ) : Int :=
  gs.foldl (fun acc s => if s.1.contains p then s.2 else acc) 0

/-- Lines 304-311: `rasterio.features.rasterize(shapes, out_shape, transform,
fill=0, dtype=np.uint8, all_touched=False)`, by its documented semantics:
reject invalid geometry objects, reject an empty shape list, reject burn-in
values that cannot be held by the `uint8` output dtype, then allocate the
output array of shape `out_shape` — `np.empty` raises for a negative
dimension and the routine rejects a zero-size output ("width and height must
be > 0"), modelled as a runtime error — and finally paint the features in
order onto the 0-filled array, sampling at pixel centers, last write
winning. -/
def rasterize (shapes : List (Option Geom × Int)) (transform : Transform)
    (out_shape : Int × Int) : Except ErrKind (Nat → Nat → Int) :=
  match extractShapes shapes with
  | none => .error (.geometryError "invalid geometry object")
  | some gs =>
      if gs.isEmpty then .error (.geometryError "no valid geometry objects found")
      else
        match gs.find? (fun s => decide (s.2 < 0) || decide (255 < s.2)) with
        | some s => .error (.invalidValue s.2)
        | none =>
            if out_shape.1 ≤ 0 ∨ out_shape.2 ≤ 0 then
              .error (.runtimeError "width and height must be > 0")
            else .ok (fun i j => paintAt gs (pixelCenter transform i j))

/-- Lines 264-311: encode the features according to `value_type`, then
rasterize them. -/
def rasterize_polygons (gdf : List Feature) (transform : Transform)
    (shape : Int × Int) (value_type : String) : Except ErrKind (Nat → Nat → Int) :=
  match encodeShapes gdf value_type with
  | .error e => .error e
  | .ok shapes => rasterize shapes transform shape

/-- Whether a feature's footprint claims the pixel whose center is `p`:
its geometry is present and contains `p`. -/
def coversPixel (f : Feature) (p : ℚ × ℚ) : Bool :=
  match f.geometry with
  | some g => g.contains p
  | none => false

/-- Whether a fallible computation succeeded. -/
def resultOk {α : Type} : Except ErrKind α → Bool
  | .ok _ => true
  | .error _ => false

/-- Value of the produced raster at (row, col), `none` on failure. -/
def gridValueAt (r : Except ErrKind (Nat → Nat → Int)) (i j : Nat) : Option Int :=
  match r with
  | .ok g => some (g i j)
  | .error _ => none

/-- GeoTIFF profile built at lines 346-359 of the script. -/
structure GTiffProfile where
  driver : String
  dtype : String
  count : Nat
  width : Int
  height : Int
  transform : Transform
  crs : String
  nodata : Int
  compress : String

/-- Lines 327-363: the writer builds a profile carrying `nodata_value` as
metadata and writes the array itself unchanged as band 1. -/
def write_geotiff (array : Nat → Nat → Int) (shape : Int × Int)
    (transform : Transform) (crs : String) (nodata_value : Int)
    (compression : String) : GTiffProfile × (Nat → Nat → Int) :=
  (⟨"GTiff", "uint8", 1, shape.2, shape.1, transform, crs, nodata_value,
    compression⟩, array)

/-- Lines 495-542 of `main`: the core stage sequence with the two empty-result
aborts (lines 509-512 and 519-522); `runtimeError` stands for an uncaught
exception of the raster-parameter step. -/
def main_pipeline (gdf : List Feature) (bbox : Option BBox) (threshold : Int)
    (resolution : ℚ) (value_type : String) :
    Except ErrKind (BBox × (Int × Int) × Transform × (Nat → Nat → Int)) :=
  if (crop_to_bbox (filter_null_geometries gdf) bbox).isEmpty then
    .error (.emptyResult "post-crop")
  else if (filter_by_dn_threshold (crop_to_bbox (filter_null_geometries gdf) bbox)
            threshold).isEmpty then
    .error (.emptyResult "post-threshold")
  else
    match calculate_raster_params
            (filter_by_dn_threshold (crop_to_bbox (filter_null_geometries gdf) bbox)
              threshold) resolution with
    | none => .error (.runtimeError "raster parameter computation")
    | some (bb, sh, tr) =>
        match rasterize_polygons
                (filter_by_dn_threshold
                  (crop_to_bbox (filter_null_geometries gdf) bbox) threshold)
                tr sh value_type with
        | .error e => .error e
        | .ok arr => .ok (bb, sh, tr, arr)

/-- Test fixture: the half-open square [0, 2) x [0, 2). -/
def geomFull : Geom :=
  ⟨[(0, 0), (2, 0), (2, 2), (0, 2)],
   fun p => decide (0 ≤ p.1) && decide (p.1 < 2) && decide (0 ≤ p.2) && decide (p.2 < 2),
   fun _ => true⟩

/-- Test fixture: feature A of the overlap example, DN 253. -/
def featA : Feature := ⟨some geomFull, 253⟩

/-- Test fixture: feature B of the overlap example, DN 255. -/
def featB : Feature := ⟨some geomFull, 255⟩

/-- Test fixture: the north-up transform of a 2 x 2 grid over [0,2) x [0,2)
with resolution 1. -/
def trTest : Transform := ⟨1, 0, 0, 0, -1, 2⟩

/-- Test fixture: a degenerate single-point geometry at (5, 7). -/
def geomPt : Geom := ⟨[(5, 7)], fun _ => false, fun _ => true⟩

/-- Test fixture: a degenerate single-point feature. -/
def featPt : Feature := ⟨some geomPt, 255⟩

/-- Test fixture: a 3 x 1 rectangle whose extent resolution 2 does not divide. -/
def geomWide : Geom := ⟨[(0, 0), (3, 0), (3, 1), (0, 1)], fun _ => true, fun _ => true⟩

/-- Test fixture: feature on the 3 x 1 rectangle, DN 253. -/
def featWide : Feature := ⟨some geomWide, 253⟩

/-- Test fixture: a feature with a null geometry. -/
def featNull : Feature := ⟨none, 0⟩

/-- Test fixture: the half-open unit cell [0, 1) x [1, 2). -/
def geomCell : Geom :=
  ⟨[(0, 1), (1, 1), (1, 2), (0, 2)],
   fun p => decide (0 ≤ p.1) && decide (p.1 < 1) && decide (1 ≤ p.2) && decide (p.2 < 2),
   fun _ => true⟩

/-- Test fixture: feature on the unit cell, DN 254. -/
def featCell : Feature := ⟨some geomCell, 254⟩

/-- Test fixture: the half-open unit cell [1, 2) x [0, 1), disjoint from the
center of pixel (0, 0). -/
def geomCell2 : Geom :=
  ⟨[(1, 0), (2, 0), (2, 1), (1, 1)],
   fun p => decide (1 ≤ p.1) && decide (p.1 < 2) && decide (0 ≤ p.2) && decide (p.2 < 1),
   fun _ => true⟩

/-- Test fixture: trailing feature on the second unit cell, DN 254. -/
def featCell2 : Feature := ⟨some geomCell2, 254⟩

/-- Test fixture: a feature whose DN 300 exceeds the 8-bit output domain. -/
def featBad : Feature := ⟨some geomFull, 300⟩

/-- Test fixture: a feature with DN 10, below the configured threshold. -/
def featLow : Feature := ⟨some geomFull, 10⟩

/-- Test fixture: expected union bounding box of `[featWide]`. -/
def wBB : BBox := ⟨0, 0, 3, 1⟩

/-- Test fixture: expected transform for `[featWide]` at resolution 2. -/
def wTr : Transform := ⟨3/2, 0, 0, 0, -1, 1⟩

/-! ## Helper lemmas -/

theorem foldl_min_le_init {α : Type} [LinearOrder α] : ∀ (l : List α) (a : α), List.foldl min a l ≤ a
  | [], _ => le_refl _
  | x :: xs, a => le_trans (foldl_min_le_init xs (min a x)) (min_le_left a x)

theorem foldl_min_le_mem {α : Type} [LinearOrder α] :
    ∀ (l : List α) (a x : α), x ∈ l → List.foldl min a l ≤ x
  | y :: ys, a, x, hx => by
    rcases List.mem_cons.mp hx with h | h
    · subst h
      exact le_trans (foldl_min_le_init ys (min a x)) (min_le_right a x)
    · exact foldl_min_le_mem ys (min a y) x h

theorem foldl_min_eq_init_or_mem {α : Type} [LinearOrder α] :
    ∀ (l : List α) (a : α), List.foldl min a l = a ∨ List.foldl min a l ∈ l
  | [], _ => Or.inl rfl
  | x :: xs, a => by
    rcases foldl_min_eq_init_or_mem xs (min a x) with h | h
    · rcases min_choice a x with hm | hm
      · exact Or.inl (by rw [List.foldl_cons, h, hm])
      · refine Or.inr ?_
        rw [List.foldl_cons, h, hm]
        exact List.mem_cons_self x xs
    · exact Or.inr (List.mem_cons_of_mem x h)

theorem le_foldl_max_init {α : Type} [LinearOrder α] : ∀ (l : List α) (a : α), a ≤ List.foldl max a l
  | [], _ => le_refl _
  | x :: xs, a => le_trans (le_max_left a x) (le_foldl_max_init xs (max a x))

theorem le_foldl_max_mem {α : Type} [LinearOrder α] :
    ∀ (l : List α) (a x : α), x ∈ l → x ≤ List.foldl max a l
  | y :: ys, a, x, hx => by
    rcases List.mem_cons.mp hx with h | h
    · subst h
      exact le_trans (le_max_right a x) (le_foldl_max_init ys (max a x))
    · exact le_foldl_max_mem ys (max a y) x h

theorem foldl_max_eq_init_or_mem {α : Type} [LinearOrder α] :
    ∀ (l : List α) (a : α), List.foldl max a l = a ∨ List.foldl max a l ∈ l
  | [], _ => Or.inl rfl
  | x :: xs, a => by
    rcases foldl_max_eq_init_or_mem xs (max a x) with h | h
    · rcases max_choice a x with hm | hm
      · exact Or.inl (by rw [List.foldl_cons, h, hm])
      · refine Or.inr ?_
        rw [List.foldl_cons, h, hm]
        exact List.mem_cons_self x xs
    · exact Or.inr (List.mem_cons_of_mem x h)

theorem totalBounds_spec (fs : List Feature) (bb : BBox) (h : totalBounds fs = some bb) :
    (∀ p ∈ allVertices fs, bb.minx ≤ p.1 ∧ p.1 ≤ bb.maxx ∧ bb.miny ≤ p.2 ∧ p.2 ≤ bb.maxy) ∧
    bb.minx ∈ (allVertices fs).map Prod.fst ∧ bb.maxx ∈ (allVertices fs).map Prod.fst ∧
    bb.miny ∈ (allVertices fs).map Prod.snd ∧ bb.maxy ∈ (allVertices fs).map Prod.snd := by
  unfold totalBounds at h
  cases hv : allVertices fs with
  | nil => rw [hv] at h; exact absurd h (by simp)
  | cons v vs =>
      rw [hv] at h
      injection h with h
      subst h
      constructor
      · intro p hp
        rcases List.mem_cons.mp hp with hp | hp
        · subst hp
          exact ⟨foldl_min_le_init _ _, le_foldl_max_init _ _,
                 foldl_min_le_init _ _, le_foldl_max_init _ _⟩
        · exact ⟨foldl_min_le_mem _ _ _ (List.mem_map_of_mem Prod.fst hp),
                 le_foldl_max_mem _ _ _ (List.mem_map_of_mem Prod.fst hp),
                 foldl_min_le_mem _ _ _ (List.mem_map_of_mem Prod.snd hp),
                 le_foldl_max_mem _ _ _ (List.mem_map_of_mem Prod.snd hp)⟩
      · have hmapf : (v :: vs).map Prod.fst = v.1 :: vs.map Prod.fst := rfl
        have hmaps : (v :: vs).map Prod.snd = v.2 :: vs.map Prod.snd := rfl
        rw [hmapf, hmaps]
        refine ⟨?_, ?_, ?_, ?_⟩
        · rcases foldl_min_eq_init_or_mem (vs.map Prod.fst) v.1 with h | h
          · rw [h]; exact List.mem_cons_self _ _
          · exact List.mem_cons_of_mem _ h
        · rcases foldl_max_eq_init_or_mem (vs.map Prod.fst) v.1 with h | h
          · rw [h]; exact List.mem_cons_self _ _
          · exact List.mem_cons_of_mem _ h
        · rcases foldl_min_eq_init_or_mem (vs.map Prod.snd) v.2 with h | h
          · rw [h]; exact List.mem_cons_self _ _
          · exact List.mem_cons_of_mem _ h
        · rcases foldl_max_eq_init_or_mem (vs.map Prod.snd) v.2 with h | h
          · rw [h]; exact List.mem_cons_self _ _
          · exact List.mem_cons_of_mem _ h

theorem encodeShapes_ok_eq (fs : List Feature) (vt : String) (l : List (Option Geom × Int))
    (h : encodeShapes fs vt = .ok l) :
    l = fs.map (fun f => (f.geometry, encodedValue vt f.dn)) := by
  by_cases h1 : vt = "binary"
  · simp [encodeShapes, encodedValue, h1] at h ⊢
    exact h.symm
  · by_cases h2 : vt = "original_dn"
    · simp [encodeShapes, encodedValue, h1, h2] at h ⊢
      exact h.symm
    · by_cases h3 : vt = "categorical"
      · simp [encodeShapes, encodedValue, h1, h2, h3] at h ⊢
        exact h.symm
      · simp [encodeShapes, h1, h2, h3] at h

theorem extractShapes_append :
    ∀ (l₁ l₂ : List (Option Geom × Int)) (gs : List (Geom × Int)),
      extractShapes (l₁ ++ l₂) = some gs →
      ∃ g₁ g₂, extractShapes l₁ = some g₁ ∧ extractShapes l₂ = some g₂ ∧ gs = g₁ ++ g₂
  | [], l₂, gs, h => ⟨[], gs, rfl, h, rfl⟩
  | (g?, v) :: rest, l₂, gs, h => by
    cases g? with
    | none =>
        have h' : (none : Option (List (Geom × Int))) = some gs := h
        exact Option.noConfusion h'
    | some g =>
        have h' : (extractShapes (rest ++ l₂)).map (fun t => (g, v) :: t) = some gs := h
        cases hr : extractShapes (rest ++ l₂) with
        | none => rw [hr] at h'; exact absurd h' (by simp)
        | some t =>
            rw [hr] at h'
            simp at h'
            obtain ⟨g₁, g₂, hg₁, hg₂, ht⟩ := extractShapes_append rest l₂ t hr
            refine ⟨(g, v) :: g₁, g₂, ?_, hg₂, ?_⟩
            · show (extractShapes rest).map (fun t => (g, v) :: t) = some ((g, v) :: g₁)
              rw [hg₁]
              rfl
            · rw [← h', ht]
              rfl

theorem extractShapes_mem :
    ∀ (shapes : List (Option Geom × Int)) (gs : List (Geom × Int)),
      extractShapes shapes = some gs → ∀ x ∈ gs, (some x.1, x.2) ∈ shapes
  | [], gs, h, x, hx => by
    have h' : some ([] : List (Geom × Int)) = some gs := h
    injection h' with h'
    subst h'
    exact absurd hx (List.not_mem_nil x)
  | (g?, v) :: rest, gs, h, x, hx => by
    cases g? with
    | none =>
        have h' : (none : Option (List (Geom × Int))) = some gs := h
        exact Option.noConfusion h'
    | some g =>
        have h' : (extractShapes rest).map (fun t => (g, v) :: t) = some gs := h
        cases hr : extractShapes rest with
        | none => rw [hr] at h'; exact absurd h' (by simp)
        | some t =>
            rw [hr] at h'
            simp at h'
            subst h'
            rcases List.mem_cons.mp hx with hx | hx
            · subst hx
              exact List.mem_cons_self _ _
            · exact List.mem_cons_of_mem _ (extractShapes_mem rest t hr x hx)

theorem extractShapes_all_some :
    ∀ shapes : List (Option Geom × Int), (∀ s ∈ shapes, s.1.isSome = true) →
      ∃ gs, extractShapes shapes = some gs ∧ gs.map Prod.snd = shapes.map Prod.snd
  | [], _ => ⟨[], rfl, rfl⟩
  | (g?, v) :: rest, h => by
    cases g? with
    | none =>
        have hh : (false : Bool) = true := h (none, v) (List.mem_cons_self _ _)
        exact absurd hh (by decide)
    | some g =>
        obtain ⟨gs, hgs, hsnd⟩ :=
          extractShapes_all_some rest (fun s hs => h s (List.mem_cons_of_mem _ hs))
        refine ⟨(g, v) :: gs, ?_, ?_⟩
        · show (extractShapes rest).map (fun t => (g, v) :: t) = some ((g, v) :: gs)
          rw [hgs]
          rfl
        · show (g, v).2 :: gs.map Prod.snd = ((some g, v).2 : Int) :: rest.map Prod.snd
          rw [hsnd]

theorem paint_fold_untouched (p : ℚ × ℚ) :
    ∀ (gs : List (Geom × Int)) (a : Int), (∀ s ∈ gs, s.1.contains p = false) →
      gs.foldl (fun acc s => if s.1.contains p then s.2 else acc) a = a
  | [], _, _ => rfl
  | s :: rest, a, h => by
    rw [List.foldl_cons, if_neg (by rw [h s (List.mem_cons_self _ _)]; exact Bool.false_ne_true)]
    exact paint_fold_untouched p rest a (fun x hx => h x (List.mem_cons_of_mem _ hx))

theorem paintAt_untouched (gs : List (Geom × Int)) (p : ℚ × ℚ)
    (h : ∀ s ∈ gs, s.1.contains p = false) : paintAt gs p = 0 :=
  paint_fold_untouched p gs 0 h

theorem paintAt_append_single (g₁ : List (Geom × Int)) (s : Geom × Int) (p : ℚ × ℚ) :
    paintAt (g₁ ++ [s]) p = if s.1.contains p then s.2 else paintAt g₁ p := by
  simp [paintAt, List.foldl_append]

theorem rasterize_eq_of_extract (shapes : List (Option Geom × Int)) (tr : Transform)
    (sh : Int × Int) (gs : List (Geom × Int)) (he : extractShapes shapes = some gs) :
    rasterize shapes tr sh =
      if gs.isEmpty then .error (.geometryError "no valid geometry objects found")
      else
        match gs.find? (fun s => decide (s.2 < 0) || decide (255 < s.2)) with
        | some s => .error (.invalidValue s.2)
        | none =>
            if sh.1 ≤ 0 ∨ sh.2 ≤ 0 then
              .error (.runtimeError "width and height must be > 0")
            else .ok (fun i j => paintAt gs (pixelCenter tr i j)) := by
  rw [rasterize, he]

theorem rasterize_ok_eval (shapes : List (Option Geom × Int)) (tr : Transform)
    (sh : Int × Int) (h : resultOk (rasterize shapes tr sh) = true) :
    ∃ gs, extractShapes shapes = some gs ∧
      ∀ i j, gridValueAt (rasterize shapes tr sh) i j = some (paintAt gs (pixelCenter tr i j)) := by
  cases he : extractShapes shapes with
  | none =>
      rw [rasterize, he] at h
      exact absurd h (by simp [resultOk])
  | some gs =>
      refine ⟨gs, rfl, ?_⟩
      intro i j
      rw [rasterize_eq_of_extract shapes tr sh gs he] at h ⊢
      split at h
      · exact absurd h (by simp [resultOk])
      · rename_i hemp
        split at h
        · exact absurd h (by simp [resultOk])
        · rename_i hfind
          split at h
          · exact absurd h (by simp [resultOk])
          · rename_i hshape
            rw [if_neg hemp, if_neg hshape]
            rfl

theorem rasterize_polygons_eval (fs : List Feature) (tr : Transform) (sh : Int × Int)
    (vt : String) (h : resultOk (rasterize_polygons fs tr sh vt) = true) :
    ∃ gs, extractShapes (fs.map (fun f => (f.geometry, encodedValue vt f.dn))) = some gs ∧
      ∀ i j, gridValueAt (rasterize_polygons fs tr sh vt) i j =
        some (paintAt gs (pixelCenter tr i j)) := by
  cases henc : encodeShapes fs vt with
  | error e =>
      rw [rasterize_polygons, henc] at h
      exact absurd h (by simp [resultOk])
  | ok l =>
      have hl := encodeShapes_ok_eq fs vt l henc
      subst hl
      have h' : resultOk (rasterize (fs.map (fun f => (f.geometry, encodedValue vt f.dn))) tr sh) = true := by
        rw [rasterize_polygons, henc] at h
        exact h
      obtain ⟨gs, hgs, hval⟩ := rasterize_ok_eval _ tr sh h'
      refine ⟨gs, hgs, ?_⟩
      intro i j
      rw [rasterize_polygons, henc]
      exact hval i j

/-! ## Claim theorems -/

/-- C1: When two features' footprints claim the same pixel (the pixel center
lies inside both polygons), the final raster value at that pixel is the
encoded value of the later feature in collection order (last-write-wins).
Stated for an arbitrary ordered collection `pre ++ A :: (mid ++ B :: post)`:
B is the later claimant and no feature after B claims the pixel — every
collection in which two or more features claim a pixel decomposes this way
with B the last claimant — so B's value is written after A's and persists
past all trailing features. In particular for A (DN 253) then B (DN 255) at
a pixel covered by both, `binary` gives 1, `original_dn` gives 255,
`categorical` gives 3, and B's value survives a trailing non-covering
feature. -/
theorem raster_overlap_later_wins :
    (∀ (pre mid post : List Feature) (A B : Feature) (vt : String) (tr : Transform)
       (sh : Int × Int) (i j : Nat),
       resultOk (rasterize_polygons (pre ++ A :: (mid ++ B :: post)) tr sh vt) = true →
       coversPixel A (pixelCenter tr i j) = true →
       coversPixel B (pixelCenter tr i j) = true →
       (∀ f ∈ post, coversPixel f (pixelCenter tr i j) = false) →
       gridValueAt (rasterize_polygons (pre ++ A :: (mid ++ B :: post)) tr sh vt) i j =
         some (encodedValue vt B.dn)) ∧
    gridValueAt (rasterize_polygons [featA, featB] trTest (2, 2) "binary") 0 0 = some 1 ∧
    gridValueAt (rasterize_polygons [featA, featB] trTest (2, 2) "original_dn") 0 0 = some 255 ∧
    gridValueAt (rasterize_polygons [featA, featB] trTest (2, 2) "categorical") 0 0 = some 3 ∧
    coversPixel featA (pixelCenter trTest 0 0) = true ∧
    coversPixel featB (pixelCenter trTest 0 0) = true ∧
    gridValueAt (rasterize_polygons [featA, featB, featCell2] trTest (2, 2)
      "original_dn") 0 0 = some 255 ∧
    coversPixel featCell2 (pixelCenter trTest 0 0) = false := by
  refine ⟨?_, by with_unfolding_all decide, by with_unfolding_all decide,
          by with_unfolding_all decide, by with_unfolding_all decide,
          by with_unfolding_all decide, by with_unfolding_all decide,
          by with_unfolding_all decide⟩
  intro pre mid post A B vt tr sh i j hok hA hB hpost
  obtain ⟨gs, hgs, hval⟩ := rasterize_polygons_eval _ tr sh vt hok
  rw [hval i j]
  have hBex : ∃ gB, B.geometry = some gB ∧ gB.contains (pixelCenter tr i j) = true := by
    cases hg : B.geometry with
    | none =>
        rw [coversPixel] at hB
        rw [hg] at hB
        have hB' : (false : Bool) = true := hB
        exact absurd hB' (by decide)
    | some g =>
        rw [coversPixel] at hB
        rw [hg] at hB
        exact ⟨g, rfl, hB⟩
  obtain ⟨gB, hBg, hBc⟩ := hBex
  have hlist : (pre ++ A :: (mid ++ B :: post)).map
        (fun f => (f.geometry, encodedValue vt f.dn)) =
      ((pre ++ A :: mid).map (fun f => (f.geometry, encodedValue vt f.dn))) ++
        ((B.geometry, encodedValue vt B.dn) ::
          post.map (fun f => (f.geometry, encodedValue vt f.dn))) := by
    simp
  rw [hlist] at hgs
  obtain ⟨g₁, g₂, hg₁, hg₂, hgseq⟩ := extractShapes_append _ _ _ hgs
  rw [hBg] at hg₂
  have hg₂' : (extractShapes (post.map (fun f => (f.geometry, encodedValue vt f.dn)))).map
      (fun t => (gB, encodedValue vt B.dn) :: t) = some g₂ := hg₂
  cases hr : extractShapes (post.map (fun f => (f.geometry, encodedValue vt f.dn))) with
  | none =>
      rw [hr] at hg₂'
      exact absurd hg₂' (by simp)
  | some g₃ =>
      rw [hr] at hg₂'
      simp at hg₂'
      subst hgseq
      rw [← hg₂']
      have hno : ∀ s ∈ g₃, s.1.contains (pixelCenter tr i j) = false := by
        intro s hs
        have hmem := extractShapes_mem _ g₃ hr s hs
        obtain ⟨f, hf, hfe⟩ := List.mem_map.mp hmem
        have hgeom : f.geometry = some s.1 := congrArg Prod.fst hfe
        have hc := hpost f hf
        simp only [coversPixel, hgeom] at hc
        exact hc
      have hpaint : paintAt (g₁ ++ (gB, encodedValue vt B.dn) :: g₃) (pixelCenter tr i j) =
          g₃.foldl (fun acc s => if s.1.contains (pixelCenter tr i j) then s.2 else acc)
            (if gB.contains (pixelCenter tr i j) then encodedValue vt B.dn
             else paintAt g₁ (pixelCenter tr i j)) := by
        simp [paintAt, List.foldl_append]
      rw [hpaint, if_pos hBc, paint_fold_untouched (pixelCenter tr i j) g₃ _ hno]

/-- Witness for C1: the later feature B (DN 255) wins at pixel (0, 0) of the
concrete overlap with a trailing non-covering feature, under the
`original_dn` policy. -/
theorem raster_overlap_later_wins_check :
    gridValueAt (rasterize_polygons ([] ++ featA :: ([] ++ featB :: [featCell2])) trTest
      (2, 2) "original_dn") 0 0 = some (encodedValue "original_dn" featB.dn) :=
  raster_overlap_later_wins.1 [] [] [featCell2] featA featB "original_dn" trTest (2, 2) 0 0
    (by with_unfolding_all decide) (by with_unfolding_all decide)
    (by with_unfolding_all decide) (by with_unfolding_all decide)

/-- C2: under the `original_dn` policy the encoding stage hands every
feature's DN to the rasterizer verbatim, and when some feature's DN lies
outside [0, 255] the rasterization call fails with `InvalidValue` (carrying
an out-of-range value) instead of producing an output array. -/
theorem original_dn_verbatim_and_range :
    (∀ fs : List Feature,
       encodeShapes fs "original_dn" = .ok (fs.map (fun f => (f.geometry, f.dn)))) ∧
    (∀ (fs : List Feature) (tr : Transform) (sh : Int × Int) (f : Feature),
       f ∈ fs → f.dn < 0 ∨ 255 < f.dn → (∀ g ∈ fs, g.geometry.isSome = true) →
       ∃ d : Int, (d < 0 ∨ 255 < d) ∧
         rasterize_polygons fs tr sh "original_dn" = .error (.invalidValue d)) := by
  constructor
  · intro fs
    rfl
  · intro fs tr sh f hf hbad hgeom
    have henc : encodeShapes fs "original_dn" = .ok (fs.map (fun f => (f.geometry, f.dn))) := rfl
    have hsome : ∀ s ∈ fs.map (fun f => (f.geometry, f.dn)), s.1.isSome = true := by
      intro s hs
      obtain ⟨g, hg, hge⟩ := List.mem_map.mp hs
      have hfst : s.1 = g.geometry := (congrArg Prod.fst hge).symm
      rw [hfst]
      exact hgeom g hg
    obtain ⟨gs, hgs, hsnd⟩ := extractShapes_all_some _ hsome
    have hvals : gs.map Prod.snd = fs.map Feature.dn := by
      rw [hsnd, List.map_map]
      rfl
    have hdnmem : f.dn ∈ gs.map Prod.snd := by
      rw [hvals]
      exact List.mem_map_of_mem Feature.dn hf
    obtain ⟨s₀, hs₀, hs₀v⟩ := List.mem_map.mp hdnmem
    have hpred : (decide (s₀.2 < 0) || decide (255 < s₀.2)) = true := by
      have hb : s₀.2 < 0 ∨ 255 < s₀.2 := by
        rw [show s₀.2 = f.dn from hs₀v]
        exact hbad
      rcases hb with hb | hb
      · rw [Bool.or_eq_true]
        exact Or.inl (decide_eq_true hb)
      · rw [Bool.or_eq_true]
        exact Or.inr (decide_eq_true hb)
    have hrepr : rasterize_polygons fs tr sh "original_dn" =
        rasterize (fs.map (fun f => (f.geometry, f.dn))) tr sh := by
      rw [rasterize_polygons, henc]
    have hne : gs ≠ [] := by
      intro hnil
      rw [hnil] at hvals
      have hmm : f.dn ∈ fs.map Feature.dn := List.mem_map_of_mem Feature.dn hf
      rw [← hvals] at hmm
      exact absurd hmm (List.not_mem_nil _)
    have hempf : gs.isEmpty = false := by
      cases gs with
      | nil => exact absurd rfl hne
      | cons a l => rfl
    cases hfind : gs.find? (fun s => decide (s.2 < 0) || decide (255 < s.2)) with
    | none =>
        exfalso
        have hnone := List.find?_eq_none.mp hfind s₀ hs₀
        exact hnone hpred
    | some s₁ =>
        have hs₁ := List.find?_some hfind
        simp only [Bool.or_eq_true, decide_eq_true_eq] at hs₁
        refine ⟨s₁.2, hs₁, ?_⟩
        rw [hrepr, rasterize_eq_of_extract _ tr sh gs hgs,
            if_neg (by rw [hempf]; exact Bool.false_ne_true), hfind]

/-- Witness for C2: feature with DN 300 makes the `original_dn` rasterization
call fail with `InvalidValue 300`. -/
theorem original_dn_range_check :
    rasterize_polygons [featA, featBad] trTest (2, 2) "original_dn" =
      .error (.invalidValue 300) := by
  have h := original_dn_verbatim_and_range.2 [featA, featBad] trTest (2, 2) featBad
    (List.mem_cons_of_mem _ (List.mem_cons_self _ _))
    (Or.inr (by with_unfolding_all decide))
    (by with_unfolding_all decide)
  obtain ⟨d, hd, heq⟩ := h
  with_unfolding_all rfl

/-- C6: the attribute threshold filter keeps a feature exactly when DN is at
least the threshold: every kept feature has DN at least t, every excluded
feature has DN strictly below t, and kept plus removed counts equal the input
count. -/
theorem dn_threshold_filter_spec (fs : List Feature) (t : Int) :
    (∀ f ∈ filter_by_dn_threshold fs t, t ≤ f.dn) ∧
    (∀ f ∈ fs, f ∉ filter_by_dn_threshold fs t → f.dn < t) ∧
    (filter_by_dn_threshold fs t).length +
      (fs.filter (fun f => decide (f.dn < t))).length = fs.length := by
  refine ⟨?_, ?_, ?_⟩
  · intro f hf
    have hm := List.mem_filter.mp hf
    exact of_decide_eq_true hm.2
  · intro f hf hnot
    by_contra hge
    push_neg at hge
    exact hnot (List.mem_filter.mpr ⟨hf, decide_eq_true hge⟩)
  · unfold filter_by_dn_threshold
    induction fs with
    | nil => rfl
    | cons a l ih =>
        by_cases h : t ≤ a.dn
        · simp [List.filter_cons, decide_eq_true h, decide_eq_false (not_lt.mpr h)]
          omega
        · simp [List.filter_cons, decide_eq_false h, decide_eq_true (not_le.mp h)]
          omega

/-- Witness for C6 at threshold 253 on [featA (DN 253), featLow (DN 10)]:
the kept feature satisfies the bound, the excluded feature is below it, and
the counts sum to the input count 2. -/
theorem dn_threshold_filter_check :
    (253 : Int) ≤ featA.dn ∧ featLow.dn < 253 ∧
    (filter_by_dn_threshold [featA, featLow] 253).length +
      ([featA, featLow].filter (fun f => decide (f.dn < 253))).length = 2 := by
  refine ⟨?_, ?_, ?_⟩
  · exact (dn_threshold_filter_spec [featA, featLow] 253).1 featA
      (show featA ∈ [featA] from List.mem_cons_self _ _)
  · exact (dn_threshold_filter_spec [featA, featLow] 253).2.1 featLow
      (List.mem_cons_of_mem _ (List.mem_cons_self _ _))
      (by
        intro hmem
        have heq := List.mem_singleton.mp hmem
        have hdn := congrArg Feature.dn heq
        exact absurd hdn (by decide))
  · exact (dn_threshold_filter_spec [featA, featLow] 253).2.2

/-- C9: the categorical encoding is the fixed total mapping DN 253 to 1,
254 to 2, 255 to 3, anything else to 0, and the `categorical` policy encodes
every feature through exactly this mapping; the mapping takes no
configuration input. -/
theorem categorical_mapping_fixed :
    dn_to_category 253 = 1 ∧ dn_to_category 254 = 2 ∧ dn_to_category 255 = 3 ∧
    (∀ dn : Int, dn ≠ 253 → dn ≠ 254 → dn ≠ 255 → dn_to_category dn = 0) ∧
    (∀ fs : List Feature,
       encodeShapes fs "categorical" =
         .ok (fs.map (fun f => (f.geometry, dn_to_category f.dn)))) := by
  refine ⟨rfl, rfl, rfl, ?_, fun fs => rfl⟩
  intro dn h1 h2 h3
  rw [dn_to_category, if_neg h1, if_neg h2, if_neg h3]

/-- Witness for C9: DN 300 is outside the three mapped values and encodes
to category 0. -/
theorem categorical_mapping_check : dn_to_category 300 = 0 :=
  categorical_mapping_fixed.2.2.2.1 300 (by decide) (by decide) (by decide)

/-- C10: the rasterization paints onto an array filled with the constant 0,
so any pixel whose center no feature's polygon contains is 0 in the produced
raster; the writer passes `nodata_value` through as pure profile metadata and
hands the array itself over unchanged, for every nodata value. -/
theorem fill_zero_untouched_pixels :
    (∀ (fs : List Feature) (vt : String) (tr : Transform) (sh : Int × Int) (i j : Nat),
       resultOk (rasterize_polygons fs tr sh vt) = true →
       (∀ f ∈ fs, coversPixel f (pixelCenter tr i j) = false) →
       gridValueAt (rasterize_polygons fs tr sh vt) i j = some 0) ∧
    (∀ (arr : Nat → Nat → Int) (sh : Int × Int) (tr : Transform) (crs : String)
       (n₁ n₂ : Int) (comp : String),
       (write_geotiff arr sh tr crs n₁ comp).2 = (write_geotiff arr sh tr crs n₂ comp).2 ∧
       (write_geotiff arr sh tr crs n₁ comp).1.nodata = n₁) := by
  constructor
  · intro fs vt tr sh i j hok huntouched
    obtain ⟨gs, hgs, hval⟩ := rasterize_polygons_eval fs tr sh vt hok
    have hz : paintAt gs (pixelCenter tr i j) = 0 := by
      apply paintAt_untouched
      intro s hs
      have hmem := extractShapes_mem _ gs hgs s hs
      obtain ⟨f, hf, hfe⟩ := List.mem_map.mp hmem
      have hgeom : f.geometry = some s.1 := congrArg Prod.fst hfe
      have hc := huntouched f hf
      simp only [coversPixel, hgeom] at hc
      exact hc
    rw [hval i j, hz]
  · intro arr sh tr crs n₁ n₂ comp
    exact ⟨rfl, rfl⟩

/-- Witness for C10: pixel (1, 1) of the 2 x 2 grid lies outside the unit-cell
feature, so the rasterized value there is the fill value 0. -/
theorem fill_zero_untouched_check :
    gridValueAt (rasterize_polygons [featCell] trTest (2, 2) "categorical") 1 1 = some 0 :=
  fill_zero_untouched_pixels.1 [featCell] "categorical" trTest (2, 2) 1 1
    (by with_unfolding_all decide) (by with_unfolding_all decide)

/-- C3: for a positive resolution, the computed grid dimensions are
`cols = ceil((maxX - minX) / r)` and `rows = ceil((maxY - minY) / r)` for the
element-wise union bounding box over all surviving features' geometry
vertices (every vertex lies inside the box and each side is attained by some
vertex coordinate). -/
theorem grid_dims_ceil_of_union_bounds (fs : List Feature) (r : ℚ) (bb : BBox)
    (sh : Int × Int) (tr : Transform) (hr : 0 < r)
    (h : calculate_raster_params fs r = some (bb, sh, tr)) :
    sh.2 = ⌈(bb.maxx - bb.minx) / r⌉ ∧ sh.1 = ⌈(bb.maxy - bb.miny) / r⌉ ∧
    totalBounds fs = some bb ∧
    (∀ p ∈ allVertices fs, bb.minx ≤ p.1 ∧ p.1 ≤ bb.maxx ∧ bb.miny ≤ p.2 ∧ p.2 ≤ bb.maxy) ∧
    bb.minx ∈ (allVertices fs).map Prod.fst ∧ bb.maxx ∈ (allVertices fs).map Prod.fst ∧
    bb.miny ∈ (allVertices fs).map Prod.snd ∧ bb.maxy ∈ (allVertices fs).map Prod.snd := by
  cases htb : totalBounds fs with
  | none =>
      rw [calculate_raster_params, htb] at h
      exact Option.noConfusion h
  | some bb' =>
      have h' : (match from_bounds bb'.minx bb'.miny bb'.maxx bb'.maxy
            (raster_shape bb' r).2 (raster_shape bb' r).1 with
          | none => none
          | some tr => some (bb', raster_shape bb' r, tr)) = some (bb, sh, tr) := by
        rw [← h, calculate_raster_params, htb]
      cases hfb : from_bounds bb'.minx bb'.miny bb'.maxx bb'.maxy
          (raster_shape bb' r).2 (raster_shape bb' r).1 with
      | none =>
          rw [hfb] at h'
          exact Option.noConfusion h'
      | some tr' =>
          rw [hfb] at h'
          injection h' with h'
          have hbb : bb' = bb := congrArg Prod.fst h'
          have hsh : raster_shape bb' r = sh := congrArg (fun x => x.2.1) h'
          subst hbb
          have hspec := totalBounds_spec fs bb' htb
          exact ⟨by rw [← hsh]; rfl, by rw [← hsh]; rfl, rfl, hspec.1,
                 hspec.2.1, hspec.2.2.1, hspec.2.2.2.1, hspec.2.2.2.2⟩

/-- Witness for C3 on the 3 x 1 rectangle at resolution 2: dimensions are
(rows, cols) = (1, 2) = (ceil(1/2), ceil(3/2)) and the bounds are attained. -/
theorem grid_dims_ceil_check :
    ((1, 2) : Int × Int).2 = ⌈(wBB.maxx - wBB.minx) / (2 : ℚ)⌉ ∧
    ((1, 2) : Int × Int).1 = ⌈(wBB.maxy - wBB.miny) / (2 : ℚ)⌉ ∧
    totalBounds [featWide] = some wBB ∧
    (∀ p ∈ allVertices [featWide],
      wBB.minx ≤ p.1 ∧ p.1 ≤ wBB.maxx ∧ wBB.miny ≤ p.2 ∧ p.2 ≤ wBB.maxy) ∧
    wBB.minx ∈ (allVertices [featWide]).map Prod.fst ∧
    wBB.maxx ∈ (allVertices [featWide]).map Prod.fst ∧
    wBB.miny ∈ (allVertices [featWide]).map Prod.snd ∧
    wBB.maxy ∈ (allVertices [featWide]).map Prod.snd :=
  grid_dims_ceil_of_union_bounds [featWide] 2 wBB (1, 2) wTr (by norm_num)
    (by with_unfolding_all decide)

/-- Counterexample for C4: the single-point collection has zero width and
height, the computed shape is (0, 0) rather than being clamped to at least 1,
and the raster-parameter computation fails (zero division in the transform)
instead of succeeding with positive dimensions. -/
theorem degenerate_dims_not_clamped_cex :
    totalBounds [featPt] = some ⟨5, 7, 5, 7⟩ ∧
    raster_shape ⟨5, 7, 5, 7⟩ 1 = (0, 0) ∧
    calculate_raster_params [featPt] 1 = none := by
  with_unfolding_all decide

/-- C4 (amended): with a degenerate union bounding box the corresponding ceil
dimension is 0 (no clamping to 1 exists in the code), and
`calculate_raster_params` then fails on the zero dimension instead of
returning a GridSpec. -/
theorem degenerate_dims_zero_and_fail (fs : List Feature) (r : ℚ) (bb : BBox)
    (h : totalBounds fs = some bb) (hdeg : bb.maxx = bb.minx ∨ bb.maxy = bb.miny) :
    (bb.maxx = bb.minx → (raster_shape bb r).2 = 0) ∧
    (bb.maxy = bb.miny → (raster_shape bb r).1 = 0) ∧
    calculate_raster_params fs r = none := by
  have hcol : bb.maxx = bb.minx → (raster_shape bb r).2 = 0 := by
    intro he
    show ⌈(bb.maxx - bb.minx) / r⌉ = 0
    rw [he, sub_self, zero_div, Int.ceil_zero]
  have hrow : bb.maxy = bb.miny → (raster_shape bb r).1 = 0 := by
    intro he
    show ⌈(bb.maxy - bb.miny) / r⌉ = 0
    rw [he, sub_self, zero_div, Int.ceil_zero]
  refine ⟨hcol, hrow, ?_⟩
  have hzero : (raster_shape bb r).2 = 0 ∨ (raster_shape bb r).1 = 0 := by
    rcases hdeg with he | he
    · exact Or.inl (hcol he)
    · exact Or.inr (hrow he)
  rw [calculate_raster_params, h]
  show (match from_bounds bb.minx bb.miny bb.maxx bb.maxy
          (raster_shape bb r).2 (raster_shape bb r).1 with
    | none => none
    | some tr => some (bb, raster_shape bb r, tr)) = none
  rw [from_bounds, if_pos hzero]

/-- Witness for C4 (amended) at the single point (5, 7), resolution 1. -/
theorem degenerate_dims_zero_check :
    ((⟨5, 7, 5, 7⟩ : BBox).maxx = (⟨5, 7, 5, 7⟩ : BBox).minx →
      (raster_shape ⟨5, 7, 5, 7⟩ 1).2 = 0) ∧
    ((⟨5, 7, 5, 7⟩ : BBox).maxy = (⟨5, 7, 5, 7⟩ : BBox).miny →
      (raster_shape ⟨5, 7, 5, 7⟩ 1).1 = 0) ∧
    calculate_raster_params [featPt] 1 = none :=
  degenerate_dims_zero_and_fail [featPt] 1 ⟨5, 7, 5, 7⟩ (by with_unfolding_all decide)
    (Or.inl rfl)

/-- Counterexample for C5: on the 3 x 1 rectangle at resolution 2 the
computed transform has pixel width 3/2 and pixel height 1, neither equal to
the resolution 2 and not uniform in X and Y either, refuting "pixel size
equals the given resolution r, uniform in X and Y". -/
theorem transform_pixel_size_cex :
    calculate_raster_params [featWide] 2 = some (wBB, (1, 2), wTr) ∧
    wTr.a ≠ 2 ∧ wTr.e ≠ -2 ∧ wTr.a ≠ -wTr.e := by
  with_unfolding_all decide

/-- C5 (amended): the transform is anchored so pixel (0,0)'s upper-left
corner maps to (minX, maxY), with no rotation terms and rows increasing
downward (negative Y step whenever the extent and row count are positive),
but its pixel sizes are (maxX - minX)/cols in X and (maxY - minY)/rows in Y,
which equal the resolution only when the resolution divides the extents. -/
theorem transform_anchor_and_scale (fs : List Feature) (r : ℚ) (bb : BBox)
    (rows cols : Int) (tr : Transform)
    (h : calculate_raster_params fs r = some (bb, (rows, cols), tr)) :
    tr.c = bb.minx ∧ tr.f = bb.maxy ∧ tr.b = 0 ∧ tr.d = 0 ∧
    tr.a = (bb.maxx - bb.minx) / (cols : ℚ) ∧
    tr.e = (bb.miny - bb.maxy) / (rows : ℚ) ∧
    (0 < rows → bb.miny < bb.maxy → tr.e < 0) := by
  cases htb : totalBounds fs with
  | none =>
      rw [calculate_raster_params, htb] at h
      exact Option.noConfusion h
  | some bb' =>
      have h' : (match from_bounds bb'.minx bb'.miny bb'.maxx bb'.maxy
            (raster_shape bb' r).2 (raster_shape bb' r).1 with
          | none => none
          | some tr => some (bb', raster_shape bb' r, tr)) = some (bb, (rows, cols), tr) := by
        rw [← h, calculate_raster_params, htb]
      cases hfb : from_bounds bb'.minx bb'.miny bb'.maxx bb'.maxy
          (raster_shape bb' r).2 (raster_shape bb' r).1 with
      | none =>
          rw [hfb] at h'
          exact Option.noConfusion h'
      | some tr' =>
          rw [hfb] at h'
          injection h' with h'
          have hbb : bb' = bb := congrArg Prod.fst h'
          have hsh : raster_shape bb' r = (rows, cols) := congrArg (fun x => x.2.1) h'
          have htr : tr' = tr := congrArg (fun x => x.2.2) h'
          subst hbb
          rw [from_bounds] at hfb
          split at hfb
          · exact Option.noConfusion hfb
          · injection hfb with hfb
            rw [htr] at hfb
            rw [← hfb]
            have hcols : (raster_shape bb' r).2 = cols := congrArg Prod.snd hsh
            have hrows : (raster_shape bb' r).1 = rows := congrArg Prod.fst hsh
            rw [hcols, hrows]
            refine ⟨rfl, rfl, rfl, rfl, rfl, rfl, ?_⟩
            intro hrowpos hlt
            apply div_neg_of_neg_of_pos
            · exact sub_neg.mpr hlt
            · exact_mod_cast hrowpos

/-- Witness for C5 (amended) on the 3 x 1 rectangle at resolution 2. -/
theorem transform_anchor_check :
    wTr.c = wBB.minx ∧ wTr.f = wBB.maxy ∧ wTr.b = 0 ∧ wTr.d = 0 ∧
    wTr.a = (wBB.maxx - wBB.minx) / ((2 : Int) : ℚ) ∧
    wTr.e = (wBB.miny - wBB.maxy) / ((1 : Int) : ℚ) ∧
    (0 < (1 : Int) → wBB.miny < wBB.maxy → wTr.e < 0) :=
  transform_anchor_and_scale [featWide] 2 wBB 1 2 wTr (by with_unfolding_all decide)

/-- Counterexample for C7: with the negative resolution -1 the pipeline does
not fail with `InvalidConfig` before any per-feature work — the grid spec IS
computed (`calculate_raster_params` succeeds, with negative dimensions), and
the run only fails later, inside the rasterization call when the output
array of non-positive shape is allocated: a runtime error, not a config
error. -/
theorem negative_resolution_no_config_error_cex :
    (calculate_raster_params [featA] (-1)).isSome = true ∧
    main_pipeline [featA] none 0 (-1) "binary" =
      .error (.runtimeError "width and height must be > 0") :=
  ⟨by with_unfolding_all decide, by with_unfolding_all rfl⟩

/-- C7 (amended): no resolution validation exists; for a negative resolution
whose magnitude is at most the extents, `calculate_raster_params` proceeds
without any error and returns strictly negative cols and rows. -/
theorem negative_resolution_proceeds (fs : List Feature) (r : ℚ) (bb : BBox)
    (hr : r < 0) (h : totalBounds fs = some bb)
    (hw : -r ≤ bb.maxx - bb.minx) (hh : -r ≤ bb.maxy - bb.miny) :
    (raster_shape bb r).2 < 0 ∧ (raster_shape bb r).1 < 0 ∧
    calculate_raster_params fs r =
      some (bb, raster_shape bb r,
        ⟨(bb.maxx - bb.minx) / (((raster_shape bb r).2 : Int) : ℚ), 0, bb.minx,
         0, (bb.miny - bb.maxy) / (((raster_shape bb r).1 : Int) : ℚ), bb.maxy⟩) := by
  have hcols : (raster_shape bb r).2 ≤ -1 := by
    show ⌈(bb.maxx - bb.minx) / r⌉ ≤ -1
    rw [Int.ceil_le]
    push_cast
    rw [div_le_iff_of_neg hr]
    linarith
  have hrows : (raster_shape bb r).1 ≤ -1 := by
    show ⌈(bb.maxy - bb.miny) / r⌉ ≤ -1
    rw [Int.ceil_le]
    push_cast
    rw [div_le_iff_of_neg hr]
    linarith
  have hc0 : (raster_shape bb r).2 < 0 := lt_of_le_of_lt hcols (by norm_num)
  have hr0 : (raster_shape bb r).1 < 0 := lt_of_le_of_lt hrows (by norm_num)
  refine ⟨hc0, hr0, ?_⟩
  rw [calculate_raster_params, h]
  show (match from_bounds bb.minx bb.miny bb.maxx bb.maxy
          (raster_shape bb r).2 (raster_shape bb r).1 with
    | none => none
    | some tr => some (bb, raster_shape bb r, tr)) = _
  have hcond : ¬((raster_shape bb r).2 = 0 ∨ (raster_shape bb r).1 = 0) := by
    push_neg
    exact ⟨ne_of_lt hc0, ne_of_lt hr0⟩
  rw [from_bounds, if_neg hcond]

/-- Witness for C7 (amended) on the 2 x 2 square at resolution -1. -/
theorem negative_resolution_check :
    (raster_shape ⟨0, 0, 2, 2⟩ (-1)).2 < 0 ∧ (raster_shape ⟨0, 0, 2, 2⟩ (-1)).1 < 0 ∧
    calculate_raster_params [featA] (-1) =
      some (⟨0, 0, 2, 2⟩, raster_shape ⟨0, 0, 2, 2⟩ (-1),
        ⟨((⟨0, 0, 2, 2⟩ : BBox).maxx - (⟨0, 0, 2, 2⟩ : BBox).minx) /
            (((raster_shape ⟨0, 0, 2, 2⟩ (-1)).2 : Int) : ℚ), 0, (⟨0, 0, 2, 2⟩ : BBox).minx,
         0, ((⟨0, 0, 2, 2⟩ : BBox).miny - (⟨0, 0, 2, 2⟩ : BBox).maxy) /
            (((raster_shape ⟨0, 0, 2, 2⟩ (-1)).1 : Int) : ℚ), (⟨0, 0, 2, 2⟩ : BBox).maxy⟩) :=
  negative_resolution_proceeds [featA] (-1) ⟨0, 0, 2, 2⟩ (by norm_num)
    (by with_unfolding_all decide) (by with_unfolding_all decide)
    (by with_unfolding_all decide)

/-- Counterexample for C8: a non-empty collection whose single feature has DN
0 (strictly below the configured threshold 253) but a null geometry makes the
pipeline terminate with `EmptyResult "post-crop"`, not
`EmptyResult "post-threshold"`. -/
theorem all_null_post_crop_cex :
    [featNull].length = 1 ∧ featNull.dn < DN_THRESHOLD ∧
    main_pipeline [featNull] CROP_BBOX DN_THRESHOLD PIXEL_RESOLUTION OUTPUT_VALUE_TYPE =
      .error (.emptyResult "post-crop") :=
  ⟨rfl, by with_unfolding_all decide, by with_unfolding_all rfl⟩

/-- C8 (amended): for a collection containing at least one feature with
non-null geometry, with no crop bbox configured and every feature's DN
strictly below the threshold, the pipeline terminates with
`EmptyResult "post-threshold"` (so no grid computation or rasterization step
is reached). -/
theorem below_threshold_empty_result (fs : List Feature) (t : Int) (r : ℚ) (vt : String)
    (hsome : ∃ f ∈ fs, f.geometry.isSome = true) (hlow : ∀ f ∈ fs, f.dn < t) :
    main_pipeline fs none t r vt = .error (.emptyResult "post-threshold") := by
  obtain ⟨f, hf, hfg⟩ := hsome
  have hmem : f ∈ filter_null_geometries fs :=
    List.mem_filter.mpr ⟨hf, hfg⟩
  have hcrop : crop_to_bbox (filter_null_geometries fs) none = filter_null_geometries fs := rfl
  have hne : (crop_to_bbox (filter_null_geometries fs) none).isEmpty = false := by
    rw [hcrop]
    cases hl : filter_null_geometries fs with
    | nil =>
        rw [hl] at hmem
        exact absurd hmem (List.not_mem_nil f)
    | cons a l => rfl
  have hthresh : filter_by_dn_threshold (crop_to_bbox (filter_null_geometries fs) none) t = [] := by
    rw [hcrop]
    unfold filter_by_dn_threshold
    rw [List.filter_eq_nil_iff]
    intro x hx
    have hxf : x ∈ fs := List.mem_of_mem_filter hx
    have hxlow := hlow x hxf
    simp only [decide_eq_true_eq]
    exact not_le.mpr hxlow
  rw [main_pipeline,
      if_neg (by rw [hne]; exact Bool.false_ne_true),
      if_pos (by rw [hthresh]; rfl)]

/-- Witness for C8 (amended): a single feature with geometry and DN 10 under
the configured threshold 253 yields the post-threshold empty result. -/
theorem below_threshold_empty_check :
    main_pipeline [featLow] CROP_BBOX DN_THRESHOLD PIXEL_RESOLUTION OUTPUT_VALUE_TYPE =
      .error (.emptyResult "post-threshold") :=
  below_threshold_empty_result [featLow] DN_THRESHOLD PIXEL_RESOLUTION OUTPUT_VALUE_TYPE
    ⟨featLow, List.mem_cons_self _ _, rfl⟩
    (by
      intro f hf
      rw [List.mem_singleton.mp hf]
      with_unfolding_all decide)
